import Mathlib

/-!
Verification development for the seam continuous audio capture-to-text pipeline.

The embedding covers:
* the JSON value model and a parser modelling the JavaScript `JSON.parse`
  used by the Protocol layer;
* the Protocol layer `transcribeAudioFile` (src/app/src/main/transcription.ts),
  modelled as a pure interpreter of one worker invocation's `ProcessOutcome`;
* the `seam:transcribe-buffer` IPC handler's minimum-size gate (src/app/src/main.ts);
* the Swift speech worker (src/native/speech/Sources/speech/main.swift):
  its callback/deadline wait race, exit-code mapping and confidence aggregation;
* the renderer's continuous recording cycle scheduler (src/app/src/renderer/App.tsx):
  `transcribeChunk`, the continuous cycle's stop handler, `stopRecording`,
  `cleanup` and a small-step event semantics for traces of scheduler events.
-/

namespace Seam

/-! ## JSON value model (JavaScript `JSON.parse`) -/

/-- A JSON value as produced by `JSON.parse`.  Numbers are modelled as exact
rationals; object fields are kept in textual order (a later duplicate key
shadows an earlier one, as in JavaScript). -/
inductive Json where
  | null
  | bool (b : Bool)
  | num (q : Rat)
  | str (s : String)
  | arr (elems : List Json)
  | obj (fields : List (String × Json))
deriving Repr

/-- Field lookup on a parsed JSON object, JavaScript semantics: the last
occurrence of a duplicated key wins; non-objects have no fields. -/
def Json.getField : Json → String → Option Json
  | .obj fields, key => (fields.reverse.find? (fun p => p.1 == key)).map (fun p => p.2)
  | _, _ => none

/-- The whitespace characters `JSON.parse` skips between tokens. -/
def jsonWs (c : Char) : Bool :=
  c == ' ' || c == '\t' || c == '\n' || c == '\r'

/-- Skip JSON whitespace. -/
def skipWs : List Char → List Char
  | [] => []
  | c :: cs => if jsonWs c then skipWs cs else c :: cs

/-- Value of a hexadecimal digit, if any. -/
def hexVal (c : Char) : Option Nat :=
  if '0' ≤ c ∧ c ≤ '9' then some (c.toNat - 48)
  else if 'a' ≤ c ∧ c ≤ 'f' then some (c.toNat - 87)
  else if 'A' ≤ c ∧ c ≤ 'F' then some (c.toNat - 55)
  else none

/-- Numeric value of a list of decimal digit characters. -/
def natOfDigits (ds : List Char) : Nat :=
  ds.foldl (fun a c => a * 10 + (c.toNat - 48)) 0

/-- Parse the body of a JSON string literal after the opening quote,
accumulating characters in reverse.  Returns the string and the rest of the
input after the closing quote. -/
def parseStringBody (fuel : Nat) (acc : List Char) (cs : List Char) :
    Except String (String × List Char) :=
  match fuel with
  | 0 => .error "string parser fuel exhausted"
  | fuel + 1 =>
    match cs with
    | [] => .error "Unterminated string in JSON"
    | '"' :: rest => .ok (String.mk acc.reverse, rest)
    | '\\' :: esc :: rest =>
      match esc with
      | '"' => parseStringBody fuel ('"' :: acc) rest
      | '\\' => parseStringBody fuel ('\\' :: acc) rest
      | '/' => parseStringBody fuel ('/' :: acc) rest
      | 'b' => parseStringBody fuel ('\x08' :: acc) rest
      | 'f' => parseStringBody fuel ('\x0c' :: acc) rest
      | 'n' => parseStringBody fuel ('\n' :: acc) rest
      | 'r' => parseStringBody fuel ('\r' :: acc) rest
      | 't' => parseStringBody fuel ('\t' :: acc) rest
      | 'u' =>
        match rest with
        | h1 :: h2 :: h3 :: h4 :: rest' =>
          match hexVal h1, hexVal h2, hexVal h3, hexVal h4 with
          | some v1, some v2, some v3, some v4 =>
            parseStringBody fuel
              (Char.ofNat (((v1 * 16 + v2) * 16 + v3) * 16 + v4) :: acc) rest'
          | _, _, _, _ => .error "Bad Unicode escape in JSON"
        | _ => .error "Bad Unicode escape in JSON"
      | _ => .error "Bad escaped character in JSON"
    | c :: rest =>
      if c.toNat < 32 then .error "Bad control character in JSON string"
      else parseStringBody fuel (c :: acc) rest

/-- Parse the optional exponent suffix of a JSON number and finish the
number. -/
def parseExponent (neg : Bool) (base : Rat) (cs : List Char) :
    Except String (Rat × List Char) :=
  let (esignNeg, r1) :=
    match cs with
    | '+' :: rr => (false, rr)
    | '-' :: rr => (true, rr)
    | _ => (false, cs)
  let p := r1.span (fun c : Char => c.isDigit)
  if p.1 = [] then .error "Missing exponent digits in JSON"
  else
    let e : Nat := natOfDigits p.1
    let scaled : Rat :=
      if esignNeg then base / ((10 : Rat) ^ e) else base * (10 : Rat) ^ e
    .ok ((if neg then -scaled else scaled), p.2)

/-- Finish a JSON number from its sign, integer digits and fraction digits,
handling an optional exponent. -/
def parseNumTail (neg : Bool) (intDigits fracDigits : List Char)
    (cs : List Char) : Except String (Rat × List Char) :=
  let mantissa : Int := (natOfDigits (intDigits ++ fracDigits) : Int)
  let base : Rat :=
    match fracDigits with
    | [] => (mantissa : Rat)
    | _ :: _ => (mantissa : Rat) / ((10 : Rat) ^ fracDigits.length)
  match cs with
  | 'e' :: r => parseExponent neg base r
  | 'E' :: r => parseExponent neg base r
  | _ => .ok ((if neg then -base else base), cs)

/-- Parse a JSON number starting at `cs` (first character is a digit or a
minus sign).  Returns the exact rational value and the rest of the input. -/
def parseNumber (cs : List Char) : Except String (Rat × List Char) :=
  let (neg, cs1) :=
    match cs with
    | '-' :: r => (true, r)
    | _ => (false, cs)
  let (intDigits, cs2) := cs1.span (fun c : Char => c.isDigit)
  if intDigits = [] then .error "Unexpected token in JSON: bad number"
  else if intDigits.length > 1 ∧ intDigits.head? = some '0' then
    .error "Unexpected number with leading zero in JSON"
  else
    match cs2 with
    | '.' :: r =>
      let p := r.span (fun c : Char => c.isDigit)
      if p.1 = [] then .error "Missing digits after decimal point in JSON"
      else parseNumTail neg intDigits p.1 p.2
    | _ => parseNumTail neg intDigits [] cs2

mutual

/-- Parse one JSON value.  `fuel` bounds recursion depth; `parseJson` supplies
enough fuel for any input. -/
def parseValue : Nat → List Char → Except String (Json × List Char)
  | 0, _ => .error "value parser fuel exhausted"
  | fuel + 1, cs =>
    match skipWs cs with
    | [] => .error "Unexpected end of JSON input"
    | 'n' :: 'u' :: 'l' :: 'l' :: rest => .ok (.null, rest)
    | 't' :: 'r' :: 'u' :: 'e' :: rest => .ok (.bool true, rest)
    | 'f' :: 'a' :: 'l' :: 's' :: 'e' :: rest => .ok (.bool false, rest)
    | '"' :: rest =>
      match parseStringBody (rest.length + 1) [] rest with
      | .ok (s, rest') => .ok (.str s, rest')
      | .error e => .error e
    | '[' :: rest =>
      (match skipWs rest with
       | ']' :: rest' => .ok (.arr [], rest')
       | other => parseArrayItems fuel [] other)
    | '\x7b' :: rest =>
      (match skipWs rest with
       | '\x7d' :: rest' => .ok (.obj [], rest')
       | other => parseObjectItems fuel [] other)
    | c :: rest =>
      if c = '-' ∨ c.isDigit then
        match parseNumber (c :: rest) with
        | .ok (q, rest') => .ok (.num q, rest')
        | .error e => .error e
      else .error "Unexpected token in JSON"

/-- Parse the items of a JSON array after at least one item is known to
follow. -/
def parseArrayItems : Nat → List Json → List Char → Except String (Json × List Char)
  | 0, _, _ => .error "value parser fuel exhausted"
  | fuel + 1, acc, cs =>
    match parseValue fuel cs with
    | .error e => .error e
    | .ok (v, rest) =>
      match skipWs rest with
      | ',' :: rest' => parseArrayItems fuel (acc ++ [v]) rest'
      | ']' :: rest' => .ok (.arr (acc ++ [v]), rest')
      | _ => .error "Expected comma or closing bracket in JSON array"

/-- Parse the members of a JSON object after at least one member is known to
follow. -/
def parseObjectItems : Nat → List (String × Json) → List Char →
    Except String (Json × List Char)
  | 0, _, _ => .error "value parser fuel exhausted"
  | fuel + 1, acc, cs =>
    match skipWs cs with
    | '"' :: rest =>
      match parseStringBody (rest.length + 1) [] rest with
      | .error e => .error e
      | .ok (key, rest') =>
        match skipWs rest' with
        | ':' :: rest2 =>
          match parseValue fuel rest2 with
          | .error e => .error e
          | .ok (v, rest3) =>
            match skipWs rest3 with
            | ',' :: rest4 => parseObjectItems fuel (acc ++ [(key, v)]) rest4
            | '\x7d' :: rest4 => .ok (.obj (acc ++ [(key, v)]), rest4)
            | _ => .error "Expected comma or closing brace in JSON object"
        | _ => .error "Expected colon in JSON object"
    | _ => .error "Expected string key in JSON object"

end

/-- Model of JavaScript `JSON.parse`: parse one value and require only
whitespace after it. -/
def parseJson (s : String) : Except String Json :=
  match parseValue (s.length + 1) s.data with
  | .error e => .error e
  | .ok (v, rest) =>
    match skipWs rest with
    | [] => .ok v
    | _ => .error "Unexpected non-whitespace character after JSON data"

/-! ## Protocol layer (src/app/src/main/transcription.ts) -/

/-- JavaScript `String.prototype.trim`, modelled over the same whitespace
characters the messages of this pipeline use: drop leading and trailing
whitespace. -/
def jsTrim (s : String) : String :=
  String.mk ((skipWs ((skipWs s.data).reverse)).reverse)

/-- JavaScript `String.prototype.substring(0, n)`: the first `n` characters. -/
def jsTake (s : String) (n : Nat) : String :=
  String.mk (s.data.take n)

/-- Whether `pat` occurs at the front of `cs`. -/
def matchesFront : List Char → List Char → Bool
  | [], _ => true
  | _ :: _, [] => false
  | p :: ps, c :: cs => p == c && matchesFront ps cs

/-- Whether `pat` occurs anywhere within `cs`. -/
def occursWithin (pat : List Char) : List Char → Bool
  | [] => matchesFront pat []
  | c :: cs => matchesFront pat (c :: cs) || occursWithin pat cs

/-- Substring test used to state which diagnostics a message carries. -/
def containsSubstring (s sub : String) : Bool :=
  occursWithin sub.data s.data

/-- Captured output of one worker process invocation, as collected by
`runProcess` in transcription.ts: full stdout and stderr buffers and the
exit code (`code ?? 0`). -/
structure ProcessOutcome where
  stdout : String
  stderr : String
  exitCode : Int
deriving Repr

/-- The hint appended by transcription.ts when the worker exits 0 with empty
stdout and empty stderr. -/
def formatMismatchHint : String :=
  "\nThe speech binary produced no output. This may indicate an unsupported audio format (WebM/Ogg are not supported by macOS Speech framework - use M4A/AAC/MP4 instead)."

/-- Interpretation step of `transcribeAudioFile` in transcription.ts: turn the
captured `ProcessOutcome` of one worker invocation into the parsed result
(`JSON.parse(output) as TranscriptionResult`, no schema validation) or a
thrown error message.  The binary-resolution and process-spawn steps are
environmental and not modelled. -/
def transcribeAudioFile (result : ProcessOutcome) : Except String Json :=
  if result.exitCode ≠ 0 then
    .error (if jsTrim result.stderr ≠ "" then jsTrim result.stderr
            else "Speech process exited with code " ++ toString result.exitCode)
  else
    let output := jsTrim result.stdout
    if output = "" then
      .error ("Speech binary produced no output." ++
        (if jsTrim result.stderr ≠ "" then
          "\nBinary error output: " ++ jsTrim result.stderr
         else formatMismatchHint))
    else
      match parseJson output with
      | .ok value => .ok value
      | .error msg =>
        .error ("Failed to parse speech output: " ++ msg ++
          "\nOutput received: " ++ jsTake output 200)

/-! ## Buffer handler gate (src/app/src/main.ts, `seam:transcribe-buffer`) -/

/-- Size checks the `seam:transcribe-buffer` IPC handler performs on the
normalized audio buffer before writing the temp file and invoking
`transcribeAudioFile`.  `.ok` means the handler proceeds to the worker
invocation. -/
def transcribeBufferGate (bufferLength : Nat) : Except String Unit :=
  if bufferLength = 0 then .error "Audio buffer is required"
  else if bufferLength < 50000 then
    .error ("Audio buffer too small: " ++ toString bufferLength ++
      " bytes (minimum 50KB required)")
  else .ok ()

/-- Whether the buffer handler lets a buffer of this size through to the
worker invocation. -/
def bufferGatePasses (bufferLength : Nat) : Bool :=
  match transcribeBufferGate bufferLength with
  | .ok _ => true
  | .error _ => false

/-! ## Speech worker (src/native/speech/Sources/speech/main.swift) -/

/-- The worker's structured error type (`AppError` in main.swift). -/
inductive AppError where
  | missingAudioPath
  | fileNotFound (path : String)
  | invalidLocale (identifier : String)
  | authorizationDenied
  | recognitionUnavailable
  | timeout
deriving DecidableEq, Repr

/-- One transcript span as reported by the platform recognizer (substring,
per-span confidence, start timestamp and duration, confidences modelled as
exact rationals). -/
structure TranscriptSegment where
  substring : String
  confidence : Rat
  timestamp : Rat
  duration : Rat
deriving DecidableEq, Repr

/-- A recognition result carried by one platform callback invocation
(`SFSpeechRecognitionResult`): the best transcription's text, its segments
and whether the result is final. -/
structure SpeechRecognitionResult where
  formattedString : String
  segments : List TranscriptSegment
  isFinal : Bool
deriving DecidableEq, Repr

/-- One invocation of the recognition task's callback: either an updated
(possibly non-final) result or an error. -/
inductive RecognitionCallback where
  | resultCb (r : SpeechRecognitionResult)
  | errorCb (message : String)
deriving DecidableEq, Repr

/-- The mutable state the callback closure in `run` updates:
`hasReceivedAnyResult`, `finalResult`, `finalError`, and whether the
semaphore has been signaled (final result or error seen). -/
structure CallbackState where
  hasReceivedAnyResult : Bool
  finalResult : Option SpeechRecognitionResult
  finalError : Option String
  signaled : Bool
deriving DecidableEq, Repr

/-- State before any callback fires. -/
def initCallbackState : CallbackState :=
  { hasReceivedAnyResult := false, finalResult := none, finalError := none,
    signaled := false }

/-- Effect of one callback invocation, as written in `run`: any result sets
`hasReceivedAnyResult` and replaces `finalResult`, a final result signals the
semaphore; any error sets `finalError` and signals. -/
def callbackStep (st : CallbackState) : RecognitionCallback → CallbackState
  | .resultCb r =>
    { st with hasReceivedAnyResult := true, finalResult := some r,
              signaled := st.signaled || r.isFinal }
  | .errorCb m => { st with finalError := some m, signaled := true }

/-- Errors `run` can throw: a structured `AppError`, or a platform
recognition error rethrown as-is. -/
inductive RunError where
  | app (e : AppError)
  | platformError (message : String)
deriving DecidableEq, Repr

/-- The wait race at the end of `run` in main.swift.  `callbacks` are the
callback invocations delivered before the bounded wait resolved (the deadline
fired if none of them signaled the semaphore).  Mirrors, in order: the
timed-out branch (accept the last-seen result if any was received, else throw
`.timeout`), the rethrow of a callback error, and the final guard that throws
`.timeout` when no result is present. -/
def runRecognitionWait (callbacks : List RecognitionCallback) :
    Except RunError SpeechRecognitionResult :=
  let st := callbacks.foldl callbackStep initCallbackState
  let didTimeOut := !st.signaled
  if didTimeOut && !st.hasReceivedAnyResult then
    .error (.app .timeout)
  else
    match st.finalError with
    | some m => .error (.platformError m)
    | none =>
      match st.finalResult with
      | some r => .ok r
      | none => .error (.app .timeout)

/-- The last result delivered by a sequence of callbacks, if any. -/
def lastResultOf (callbacks : List RecognitionCallback) :
    Option SpeechRecognitionResult :=
  callbacks.foldl
    (fun acc c =>
      match c with
      | .resultCb r => some r
      | .errorCb _ => acc)
    none

/-- Outcome of one whole worker process run, as seen by `SpeechCLI.main`:
normal return from `run`, a thrown `AppError`, or any other thrown error. -/
inductive WorkerOutcome where
  | success
  | failure (e : AppError)
  | unexpected (message : String)
deriving DecidableEq, Repr

/-- Exit code produced by the catch cascade in `SpeechCLI.main`:
`AppError.missingAudioPath` is caught first and exits 1 (after printing
usage), any other `AppError` exits 2, any other error exits 3, and a normal
return exits 0. -/
def speechMainExitCode : WorkerOutcome → Nat
  | .success => 0
  | .failure .missingAudioPath => 1
  | .failure _ => 2
  | .unexpected _ => 3

/-- How a `run` outcome maps to the whole process outcome: a payload printed
and a normal return on success, the `AppError` cascade on structured errors,
and the generic catch for rethrown platform errors. -/
def workerOutcomeOfRun (res : Except RunError SpeechRecognitionResult) :
    WorkerOutcome :=
  match res with
  | .ok _ => .success
  | .error (.app e) => .failure e
  | .error (.platformError m) => .unexpected m

/-- The `Sequence.average` extension in main.swift: fold accumulating a
running total and count, then `total / count` when the count is positive and
`0` otherwise.  Float values are modelled as exact rationals. -/
def floatAverage (values : List Rat) : Rat :=
  let acc := values.foldl (fun p v => (p.1 + v, p.2 + 1)) ((0 : Rat), (0 : Rat))
  if 0 < acc.2 then acc.1 / acc.2 else 0

/-- The payload the worker serializes to stdout (`RecognitionPayload`). -/
structure RecognitionPayload where
  locale : String
  text : String
  confidence : Rat
  segments : List TranscriptSegment
  audioPath : String
deriving DecidableEq, Repr

/-- `RecognitionPayload.init` in main.swift: echo the locale and audio path,
take the best transcription's text and segments, and aggregate the segment
confidences with `Sequence.average`. -/
def RecognitionPayload.ofResult (result : SpeechRecognitionResult)
    (locale : String) (audioPath : String) : RecognitionPayload :=
  { locale := locale,
    text := result.formattedString,
    confidence := floatAverage (result.segments.map (fun s => s.confidence)),
    segments := result.segments,
    audioPath := audioPath }

/-! ## Recording cycle scheduler (src/app/src/renderer/App.tsx) -/

/-- The `status` state of the recorder component. -/
inductive Status where
  | idle
  | initializing
  | recording
  | denied
  | errored
deriving DecidableEq, Repr

/-- State of the active `MediaRecorder`, when one exists. -/
inductive RecorderState where
  | recording
  | inactive
deriving DecidableEq, Repr

/-- Which timeout `continuousCycleTimerRef` currently holds: the 10-second
stop-this-cycle timeout, or the 500 ms schedule-next-cycle timeout. -/
inductive TimerKind where
  | cycleStopTimer
  | nextCycleTimer
deriving DecidableEq, Repr

/-- The scheduler-relevant mutable state of the recorder component.
`inFlight` is `transcriptionQueueRef`, `hasStream` is whether
`streamRef.current` holds an open microphone stream, `cycleTimer` is
`continuousCycleTimerRef`.  `activeDispatches` counts recognition dispatches
started and not yet settled; `dispatched`, `dropped` and `skippedSmall`
record, by segment id, which finished cycles were sent to recognition,
skipped by the in-flight gate, and discarded as below the size threshold. -/
structure SchedulerState where
  status : Status
  continuousMode : Bool
  hasStream : Bool
  recorder : Option RecorderState
  cycleTimer : Option TimerKind
  inFlight : Bool
  activeDispatches : Nat
  dispatched : List Nat
  dropped : List Nat
  skippedSmall : List Nat
deriving DecidableEq, Repr

/-- Component state before any recording has started. -/
def initialState : SchedulerState :=
  { status := .idle, continuousMode := false, hasStream := false,
    recorder := none, cycleTimer := none, inFlight := false,
    activeDispatches := 0, dispatched := [], dropped := [],
    skippedSmall := [] }

/-- The `cleanup` callback (no options): clears the cycle timer, stops and
drops the recorder, and stops and releases the microphone stream. -/
def cleanup (st : SchedulerState) : SchedulerState :=
  { st with cycleTimer := none, recorder := none, hasStream := false }

/-- `transcribeChunk`: if a transcription is already in progress the chunk is
skipped (logged and returned, never stored); otherwise the in-flight flag is
set and the chunk is dispatched to `transcribeBlob`. -/
def transcribeChunk (st : SchedulerState) (segId : Nat) : SchedulerState :=
  if st.inFlight then
    { st with dropped := st.dropped ++ [segId] }
  else
    { st with inFlight := true,
              activeDispatches := st.activeDispatches + 1,
              dispatched := st.dispatched ++ [segId] }

/-- The `finally` block of `transcribeChunk`, run when the awaited
`transcribeBlob` settles (resolves or throws): the in-flight flag is reset
either way. -/
def dispatchSettled (st : SchedulerState) : SchedulerState :=
  { st with inFlight := false, activeDispatches := st.activeDispatches - 1 }

/-- The continuous cycle's `handleStop` handler, run when the recorder's stop
event delivers a finished cycle's blob of `size` bytes: dispatch via
`transcribeChunk` when `blob.size >= 25000`, otherwise skip the small
recording; then schedule the next cycle's 500 ms timer exactly when still in
continuous mode with an open stream. -/
def handleStop (st0 : SchedulerState) (segId : Nat) (size : Nat) :
    SchedulerState :=
  let st1 := { st0 with recorder := some .inactive }
  let st2 :=
    if 25000 ≤ size then transcribeChunk st1 segId
    else { st1 with skippedSmall := st1.skippedSmall ++ [segId] }
  if st2.continuousMode && st2.hasStream then
    { st2 with cycleTimer := some .nextCycleTimer }
  else st2

/-- `startContinuousRecordingCycle`: without a stream it only logs and
returns; with one it creates a recorder, starts it, and arms the 10-second
stop timer. -/
def startContinuousRecordingCycle (st : SchedulerState) : SchedulerState :=
  if st.hasStream then
    { st with recorder := some .recording, cycleTimer := some .cycleStopTimer }
  else st

/-- `startRecording(true)` on the success path of `getUserMedia`: acquire the
stream, enter continuous mode with status `recording`, and start the first
cycle. -/
def startRecordingContinuousGranted (st : SchedulerState) : SchedulerState :=
  let st1 := { st with status := .initializing }
  let st2 := { st1 with hasStream := true }
  let st3 := { st2 with continuousMode := true, status := .recording }
  startContinuousRecordingCycle st3

/-- `stopRecording`: a no-op unless recording or initializing; otherwise it
clears continuous mode and, if the recorder is actively recording, calls
`recorder.stop()` (its stop event arrives later) — the `cleanup` +
`setStatus('idle')` branch runs only when no active recorder exists. -/
def stopRecording (st : SchedulerState) : SchedulerState :=
  if st.status ≠ .recording ∧ st.status ≠ .initializing then st
  else
    let st1 := { st with continuousMode := false }
    match st1.recorder with
    | some .recording => { st1 with recorder := some .inactive }
    | _ => { (cleanup st1) with status := .idle }

/-- The 10-second cycle timeout: stop the recorder if it is still recording
(its stop event arrives later), otherwise only log. -/
def cycleStopTimerFires (st : SchedulerState) : SchedulerState :=
  match st.recorder with
  | some .recording => { st with recorder := some .inactive }
  | _ => st

/-- Events the scheduler reacts to. -/
inductive SchedEvent where
  | cycleEnd (segId : Nat) (size : Nat)
  | dispatchDone (ok : Bool)
  | stopPressed
  | nextCycleFires
  | stopTimerFires
deriving DecidableEq, Repr

/-- One step of the scheduler's single-threaded event loop. -/
def step (st : SchedulerState) : SchedEvent → SchedulerState
  | .cycleEnd segId size => handleStop st segId size
  | .dispatchDone _ => dispatchSettled st
  | .stopPressed => stopRecording st
  | .nextCycleFires =>
    if st.cycleTimer = some .nextCycleTimer then startContinuousRecordingCycle st
    else st
  | .stopTimerFires => cycleStopTimerFires st

/-- Run a sequence of events. -/
def run (st : SchedulerState) (evs : List SchedEvent) : SchedulerState :=
  evs.foldl step st

/-- Environmental validity of one event: a dispatch can only settle while one
is in flight (the settle event is the continuation of the awaited
`transcribeBlob` call). -/
def eventOk (st : SchedulerState) : SchedEvent → Bool
  | .dispatchDone _ => st.inFlight
  | _ => true

/-- Validity of an event trace from a state. -/
def validTrace : SchedulerState → List SchedEvent → Bool
  | _, [] => true
  | st, e :: es => eventOk st e && validTrace (step st e) es

/-- The ghost dispatch counter agrees with the in-flight flag. -/
def gateInv (st : SchedulerState) : Prop :=
  st.activeDispatches = (if st.inFlight then 1 else 0)

/-- The segment id an event carries, if any. -/
def eventSegId : SchedEvent → Option Nat
  | .cycleEnd segId _ => some segId
  | _ => none

/-! ## Scheduler lemmas -/

/-- `handleStop` preserves the agreement between the ghost dispatch counter
and the in-flight flag. -/
theorem gateInv_handleStop (st : SchedulerState) (segId size : Nat)
    (h : gateInv st) : gateInv (handleStop st segId size) := by
  unfold gateInv at *
  unfold handleStop transcribeChunk
  dsimp only
  by_cases hs : 25000 ≤ size <;> by_cases hf : st.inFlight <;>
    simp only [hs, hf, if_true, if_false, ite_true, ite_false] <;>
    split_ifs <;> simp_all

/-- Every valid event step preserves the gate invariant. -/
theorem gateInv_step (st : SchedulerState) (e : SchedEvent)
    (hok : eventOk st e = true) (h : gateInv st) : gateInv (step st e) := by
  cases e with
  | cycleEnd segId size => exact gateInv_handleStop st segId size h
  | dispatchDone ok =>
    have hok' : st.inFlight = true := hok
    unfold gateInv at *
    simp [step, dispatchSettled, hok', h]
  | stopPressed =>
    unfold gateInv at *
    unfold step stopRecording cleanup
    dsimp only
    by_cases hst : st.status ≠ Status.recording ∧ st.status ≠ Status.initializing
    · simp [hst, h]
    · rcases hrec : st.recorder with _ | rs
      · simp [hst, hrec, h]
      · cases rs <;> simp [hst, hrec, h]
  | nextCycleFires =>
    unfold gateInv at *
    unfold step startContinuousRecordingCycle
    dsimp only
    by_cases ht : st.cycleTimer = some TimerKind.nextCycleTimer <;>
      by_cases hsm : st.hasStream <;>
      simp [ht, hsm, h]
  | stopTimerFires =>
    unfold gateInv at *
    unfold step cycleStopTimerFires
    dsimp only
    rcases hrec : st.recorder with _ | rs
    · simp [hrec, h]
    · cases rs <;> simp [hrec, h]

/-- The gate invariant holds after any valid trace. -/
theorem gateInv_run (st : SchedulerState) (evs : List SchedEvent)
    (h : gateInv st) (hv : validTrace st evs = true) :
    gateInv (run st evs) := by
  induction evs generalizing st with
  | nil => exact h
  | cons e es ih =>
    unfold validTrace at hv
    rw [Bool.and_eq_true] at hv
    exact ih (step st e) (gateInv_step st e hv.1 h) hv.2

/-- A prefix of a valid trace is valid. -/
theorem validTrace_ofAppend (st : SchedulerState) (pre suf : List SchedEvent)
    (hv : validTrace st (pre ++ suf) = true) : validTrace st pre = true := by
  induction pre generalizing st with
  | nil => rfl
  | cons e es ih =>
    rw [List.cons_append] at hv
    unfold validTrace at hv ⊢
    rw [Bool.and_eq_true] at hv ⊢
    exact ⟨hv.1, ih (step st e) hv.2⟩

/-- One step only ever appends the stepped event's own segment id to the
dispatched list. -/
theorem dispatched_step_not_mem (st : SchedulerState) (e : SchedEvent)
    (segId : Nat) (hmem : segId ∉ st.dispatched)
    (hid : eventSegId e ≠ some segId) : segId ∉ (step st e).dispatched := by
  cases e with
  | cycleEnd segId' size =>
    have hne : segId' ≠ segId := by
      intro hEq
      exact hid (by simp [eventSegId, hEq])
    unfold step handleStop transcribeChunk
    dsimp only
    by_cases hs : 25000 ≤ size <;> by_cases hf : st.inFlight <;>
      simp only [hs, hf, if_true, if_false, ite_true, ite_false] <;>
      split_ifs <;> simp_all <;> omega
  | dispatchDone ok => simpa [step, dispatchSettled] using hmem
  | stopPressed =>
    unfold step stopRecording cleanup
    dsimp only
    by_cases hst : st.status ≠ Status.recording ∧ st.status ≠ Status.initializing
    · simpa [hst] using hmem
    · rcases hrec : st.recorder with _ | rs
      · simpa [hst, hrec] using hmem
      · cases rs <;> simpa [hst, hrec] using hmem
  | nextCycleFires =>
    unfold step startContinuousRecordingCycle
    dsimp only
    by_cases ht : st.cycleTimer = some TimerKind.nextCycleTimer <;>
      by_cases hsm : st.hasStream <;>
      simpa [ht, hsm] using hmem
  | stopTimerFires =>
    unfold step cycleStopTimerFires
    dsimp only
    rcases hrec : st.recorder with _ | rs
    · simpa [hrec] using hmem
    · cases rs <;> simpa [hrec] using hmem

/-- A segment id that is not dispatched and is carried by no later event is
never dispatched later. -/
theorem dispatched_run_not_mem (st : SchedulerState) (evs : List SchedEvent)
    (segId : Nat) (hmem : segId ∉ st.dispatched)
    (hid : ∀ e ∈ evs, eventSegId e ≠ some segId) :
    segId ∉ (run st evs).dispatched := by
  induction evs generalizing st with
  | nil => exact hmem
  | cons e es ih =>
    exact ih (step st e)
      (dispatched_step_not_mem st e segId hmem (hid e (by simp)))
      (fun e' he' => hid e' (by simp [he']))

/-- C1: single-flight invariant.  Along any valid event trace the number of
in-flight recognition dispatches never exceeds one; when a cycle's segment
becomes ready while the gate is held, `handleStop` leaves the dispatched list
unchanged, records the segment as dropped, keeps the gate held, still
schedules the next cycle whenever continuous mode and the stream persist, and
the dropped segment is never queued: no later trace dispatches it (unless a
later cycle carries the same id). -/
theorem single_flight_invariant
    (st0 : SchedulerState) (evs : List SchedEvent)
    (h0 : gateInv st0) (hv : validTrace st0 evs = true)
    (st : SchedulerState) (segId size : Nat)
    (hgate : st.inFlight = true) (hsize : 25000 ≤ size) :
    (∀ pre suf, evs = pre ++ suf → (run st0 pre).activeDispatches ≤ 1)
    ∧ (handleStop st segId size).dispatched = st.dispatched
    ∧ (handleStop st segId size).dropped = st.dropped ++ [segId]
    ∧ (handleStop st segId size).inFlight = true
    ∧ (st.continuousMode = true → st.hasStream = true →
        (handleStop st segId size).cycleTimer = some .nextCycleTimer)
    ∧ (∀ evs2, segId ∉ st.dispatched →
        (∀ e ∈ evs2, eventSegId e ≠ some segId) →
        segId ∉ (run (handleStop st segId size) evs2).dispatched) := by
  refine ⟨?_, ?_, ?_, ?_, ?_, ?_⟩
  · intro pre suf hEq
    have hpre : validTrace st0 pre = true := validTrace_ofAppend st0 pre suf (hEq ▸ hv)
    have hinv := gateInv_run st0 pre h0 hpre
    unfold gateInv at hinv
    rw [hinv]
    split <;> omega
  · unfold handleStop transcribeChunk
    dsimp only
    split_ifs <;> simp_all
  · unfold handleStop transcribeChunk
    dsimp only
    split_ifs <;> simp_all
  · unfold handleStop transcribeChunk
    dsimp only
    split_ifs <;> simp_all
  · intro hcm hhs
    unfold handleStop transcribeChunk
    dsimp only
    split_ifs <;> simp_all
  · intro evs2 hmem hid
    refine dispatched_run_not_mem _ evs2 segId ?_ hid
    unfold handleStop transcribeChunk
    dsimp only
    split_ifs <;> simp_all

/-- Witness for `single_flight_invariant` at a concrete state and trace: the
state reached after one dispatched cycle holds the gate, and a second
finished cycle's segment leaves the dispatched list unchanged. -/
theorem single_flight_invariant_witness :
    (handleStop
        (run (startRecordingContinuousGranted initialState)
          [SchedEvent.cycleEnd 1 30000]) 2 30000).dispatched
      = (run (startRecordingContinuousGranted initialState)
          [SchedEvent.cycleEnd 1 30000]).dispatched :=
  (single_flight_invariant (startRecordingContinuousGranted initialState)
      [SchedEvent.cycleEnd 1 30000, SchedEvent.dispatchDone true]
      (by unfold gateInv; decide) (by decide)
      (run (startRecordingContinuousGranted initialState)
        [SchedEvent.cycleEnd 1 30000])
      2 30000 (by decide) (by decide)).2.1

/-- C10: for every `transcribeChunk` invocation that passes the gate the
in-flight flag is set and the chunk dispatched; the settle continuation (the
`finally` block) resets the flag whether the awaited transcription resolved
or threw, so after any settle a later qualifying cycle dispatches again. -/
theorem inflight_flag_cleared
    (st : SchedulerState) (ok : Bool) (segId size : Nat)
    (hgate : st.inFlight = false) (hsize : 25000 ≤ size) :
    (transcribeChunk st segId).inFlight = true
    ∧ (transcribeChunk st segId).dispatched = st.dispatched ++ [segId]
    ∧ (∀ st' : SchedulerState, (step st' (.dispatchDone ok)).inFlight = false)
    ∧ (handleStop (step st (.dispatchDone ok)) segId size).dispatched
        = st.dispatched ++ [segId] := by
  refine ⟨?_, ?_, ?_, ?_⟩
  · simp [transcribeChunk, hgate]
  · simp [transcribeChunk, hgate]
  · intro st'
    simp [step, dispatchSettled]
  · unfold step dispatchSettled handleStop transcribeChunk
    dsimp only
    split_ifs <;> simp_all

/-- Witness for `inflight_flag_cleared`: after a failed dispatch settles, the
next 30000-byte cycle is dispatched again. -/
theorem inflight_flag_cleared_witness :
    (handleStop (step (startRecordingContinuousGranted initialState)
        (.dispatchDone false)) 3 30000).dispatched = [3] :=
  (inflight_flag_cleared (startRecordingContinuousGranted initialState)
      false 3 30000 (by decide) (by decide)).2.2.2

/-- C5 (code evaluation at the failing input): in continuous mode, pressing
stop while a cycle's recorder is actively recording leaves the microphone
stream open and the status `recording` after `stopRecording` returns, and
still after the recorder's stop event is handled; only a second stop press
releases the stream.  Stop with no cycle ever started is a no-op. -/
theorem stop_mid_cycle_leaves_stream_open :
    (stopRecording (startRecordingContinuousGranted initialState)).hasStream
        = true
    ∧ (stopRecording (startRecordingContinuousGranted initialState)).status
        = .recording
    ∧ (step (stopRecording (startRecordingContinuousGranted initialState))
        (.cycleEnd 0 30000)).hasStream = true
    ∧ (step (stopRecording (startRecordingContinuousGranted initialState))
        (.cycleEnd 0 30000)).cycleTimer ≠ some .nextCycleTimer
    ∧ (stopRecording (step
        (stopRecording (startRecordingContinuousGranted initialState))
        (.cycleEnd 0 30000))).hasStream = false
    ∧ (stopRecording (step
        (stopRecording (startRecordingContinuousGranted initialState))
        (.cycleEnd 0 30000))).status = .idle
    ∧ stopRecording initialState = initialState := by
  decide

/-- C2 counterexample: a 30000-byte segment meets the renderer's 25000-byte
threshold and is dispatched, but the `seam:transcribe-buffer` handler rejects
it before any worker invocation, so it never reaches the Protocol layer. -/
theorem min_size_reaches_worker_counterexample :
    (handleStop (startRecordingContinuousGranted initialState) 7 30000).dispatched
        = [7]
    ∧ transcribeBufferGate 30000
        = .error "Audio buffer too small: 30000 bytes (minimum 50KB required)"
    ∧ bufferGatePasses 30000 = false := by
  refine ⟨by decide, by rfl, by rfl⟩

/-- C2 (amended): absent the single-flight gate, a finished cycle's segment
is dispatched by the scheduler if and only if its size is at least 25000
bytes, and a segment below that threshold is discarded with no side effect;
but a dispatched buffer reaches the worker invocation if and only if its size
is at least 50000 bytes — the buffer handler rejects smaller buffers with an
error before invoking the worker. -/
theorem min_size_filtering_amended (st : SchedulerState) (segId size : Nat)
    (hgate : st.inFlight = false) :
    (25000 ≤ size →
        (handleStop st segId size).dispatched = st.dispatched ++ [segId])
    ∧ (size < 25000 →
        (handleStop st segId size).dispatched = st.dispatched
        ∧ (handleStop st segId size).inFlight = false
        ∧ (handleStop st segId size).activeDispatches = st.activeDispatches
        ∧ (handleStop st segId size).dropped = st.dropped
        ∧ (handleStop st segId size).skippedSmall = st.skippedSmall ++ [segId])
    ∧ (∀ n, bufferGatePasses n = true ↔ 50000 ≤ n) := by
  refine ⟨?_, ?_, ?_⟩
  · intro hs
    unfold handleStop transcribeChunk
    dsimp only
    split_ifs <;> simp_all
  · intro hs
    have hs' : ¬ 25000 ≤ size := by omega
    unfold handleStop transcribeChunk
    dsimp only
    split_ifs <;> simp_all
  · intro n
    unfold bufferGatePasses transcribeBufferGate
    by_cases h0 : n = 0
    · subst h0
      simp
    · by_cases hlt : n < 50000 <;> simp [h0, hlt] <;> omega

/-- Witness for `min_size_filtering_amended`: with the gate free, a
60000-byte segment is dispatched. -/
theorem min_size_filtering_amended_witness :
    (handleStop (startRecordingContinuousGranted initialState) 4 60000).dispatched
      = [4] :=
  (min_size_filtering_amended (startRecordingContinuousGranted initialState)
      4 60000 (by decide)).1 (by decide)

/-! ## Worker lemmas and claims -/

/-- Folding callbacks that only report non-final results keeps the semaphore
unsignaled, records no error, stores the last result seen, and has received a
result exactly when one is stored. -/
theorem callbackRun_nonFinal (cbs : List RecognitionCallback)
    (hok : ∀ c ∈ cbs, ∃ r, c = RecognitionCallback.resultCb r ∧ r.isFinal = false)
    (st : CallbackState)
    (hsig : st.signaled = false) (herr : st.finalError = none)
    (hhr : st.hasReceivedAnyResult = st.finalResult.isSome) :
    (cbs.foldl callbackStep st).signaled = false
    ∧ (cbs.foldl callbackStep st).finalError = none
    ∧ (cbs.foldl callbackStep st).finalResult
        = cbs.foldl
            (fun acc c =>
              match c with
              | RecognitionCallback.resultCb r => some r
              | RecognitionCallback.errorCb _ => acc)
            st.finalResult
    ∧ (cbs.foldl callbackStep st).hasReceivedAnyResult
        = ((cbs.foldl callbackStep st).finalResult).isSome := by
  induction cbs generalizing st with
  | nil => exact ⟨hsig, herr, rfl, hhr⟩
  | cons c cs ih =>
    obtain ⟨r, hc, hrf⟩ := hok c (by simp)
    subst hc
    have h := ih (fun c' hc' => hok c' (by simp [hc']))
      (callbackStep st (.resultCb r))
      (by simp [callbackStep, hsig, hrf]) (by simp [callbackStep, herr])
      (by simp [callbackStep])
    simpa [callbackStep] using h

/-- C3: timeout policy of the worker.  For a recognition task whose callbacks
only ever deliver non-final results before the deadline (so the bounded wait
times out), the worker resolves successfully with the last-seen result when
at least one was received, and resolves with the `timeout` failure — a
constructor distinct from every other failure kind — when none was ever
received. -/
theorem worker_timeout_policy (cbs : List RecognitionCallback)
    (hok : ∀ c ∈ cbs, ∃ r, c = RecognitionCallback.resultCb r ∧ r.isFinal = false) :
    (∀ r, lastResultOf cbs = some r → runRecognitionWait cbs = .ok r)
    ∧ (lastResultOf cbs = none →
        runRecognitionWait cbs = .error (.app .timeout))
    ∧ (∀ e : AppError, RunError.app AppError.timeout = RunError.app e →
        e = AppError.timeout)
    ∧ (∀ m, RunError.app AppError.timeout ≠ RunError.platformError m) := by
  obtain ⟨h1, h2, h3, h4⟩ :=
    callbackRun_nonFinal cbs hok initCallbackState rfl rfl rfl
  have h3' : (cbs.foldl callbackStep initCallbackState).finalResult
      = lastResultOf cbs := by
    simpa [lastResultOf, initCallbackState] using h3
  refine ⟨?_, ?_, ?_, ?_⟩
  · intro r hr
    unfold runRecognitionWait
    rw [h3'] at h4
    simp [h1, h2, h3', h4, hr]
  · intro hr
    unfold runRecognitionWait
    rw [h3'] at h4
    simp [h1, h2, h3', h4, hr]
  · intro e he
    exact (RunError.app.injEq _ _ ▸ he).symm
  · intro m h
    exact RunError.noConfusion h

/-- Witness for `worker_timeout_policy`: one non-final result before the
deadline yields success carrying that result. -/
theorem worker_timeout_policy_witness :
    runRecognitionWait
        [RecognitionCallback.resultCb
          { formattedString := "こんにちは", segments := [], isFinal := false }]
      = .ok { formattedString := "こんにちは", segments := [], isFinal := false } :=
  (worker_timeout_policy
      [RecognitionCallback.resultCb
        { formattedString := "こんにちは", segments := [], isFinal := false }]
      (by
        intro c hc
        rw [List.mem_singleton] at hc
        exact ⟨_, hc, rfl⟩)).1
    { formattedString := "こんにちは", segments := [], isFinal := false } rfl

/-- C7 counterexample: the catch cascade of `SpeechCLI.main` does not map
usage errors to one shared non-zero code distinct from the runtime failures'
code — a missing audio path exits 1 while a missing file or invalid locale
exits 2, the same code as authorization denial, unavailability, and timeout,
while unexpected errors exit 3. -/
theorem worker_exit_code_partition_counterexample :
    ¬ ∃ usageCode runtimeCode : Nat,
        usageCode ≠ 0 ∧ runtimeCode ≠ 0 ∧ usageCode ≠ runtimeCode
        ∧ speechMainExitCode (.failure .missingAudioPath) = usageCode
        ∧ speechMainExitCode (.failure (.fileNotFound "/tmp/missing.m4a"))
            = usageCode
        ∧ speechMainExitCode (.failure (.invalidLocale "zz-ZZ")) = usageCode
        ∧ speechMainExitCode (.failure .authorizationDenied) = runtimeCode
        ∧ speechMainExitCode (.failure .recognitionUnavailable) = runtimeCode
        ∧ speechMainExitCode (.failure .timeout) = runtimeCode
        ∧ speechMainExitCode (.unexpected "boom") = runtimeCode := by
  rintro ⟨u, r, -, -, -, h1, h2, -, -, -, -, -⟩
  simp only [speechMainExitCode] at h1 h2
  omega

/-- C7 (amended): the worker exits 0 exactly on success (a payload printed,
partial results included), 1 for the missing-audio-path/help usage error, 2
for every other structured error — usage errors such as file-not-found and
invalid-locale and runtime failures such as authorization denial,
unavailability and timeout-empty alike — and 3 for unexpected errors; exit
code 0 implies a recognition payload is present. -/
theorem worker_exit_codes_amended (o : WorkerOutcome) :
    (speechMainExitCode o = 0 ↔ o = .success)
    ∧ speechMainExitCode (.failure .missingAudioPath) = 1
    ∧ (∀ e : AppError, e ≠ .missingAudioPath →
        speechMainExitCode (.failure e) = 2)
    ∧ (∀ m, speechMainExitCode (.unexpected m) = 3)
    ∧ (∀ res : Except RunError SpeechRecognitionResult,
        speechMainExitCode (workerOutcomeOfRun res) = 0 ↔ ∃ r, res = .ok r) := by
  refine ⟨?_, rfl, ?_, fun m => rfl, ?_⟩
  · cases o with
    | success => simp [speechMainExitCode]
    | failure e => cases e <;> simp [speechMainExitCode]
    | unexpected m => simp [speechMainExitCode]
  · intro e he
    cases e <;> simp_all [speechMainExitCode]
  · intro res
    cases res with
    | ok r => simp [workerOutcomeOfRun, speechMainExitCode]
    | error err =>
      cases err with
      | app e => cases e <;> simp [workerOutcomeOfRun, speechMainExitCode]
      | platformError m => simp [workerOutcomeOfRun, speechMainExitCode]

/-- Witness for `worker_exit_codes_amended`: an invalid locale exits 2. -/
theorem worker_exit_codes_amended_witness :
    speechMainExitCode (.failure (.invalidLocale "zz-ZZ")) = 2 :=
  (worker_exit_codes_amended .success).2.2.1 (.invalidLocale "zz-ZZ") (by simp)

/-- The accumulator fold of `Sequence.average` computes the running total and
count. -/
theorem floatAverage_foldl (values : List Rat) (a c : Rat) :
    values.foldl (fun p v => (p.1 + v, p.2 + 1)) (a, c)
      = (a + values.sum, c + values.length) := by
  induction values generalizing a c with
  | nil => simp
  | cons x xs ih =>
    rw [List.foldl_cons, ih]
    refine Prod.ext ?_ ?_ <;> dsimp only
    · rw [List.sum_cons]
      ring
    · rw [List.length_cons]
      push_cast
      ring

/-- `Sequence.average` is the arithmetic mean, and 0 on the empty list. -/
theorem floatAverage_eq_mean (xs : List Rat) :
    floatAverage xs = if xs = [] then 0 else xs.sum / (xs.length : Rat) := by
  unfold floatAverage
  rw [floatAverage_foldl]
  rcases xs with _ | ⟨x, xs⟩
  · simp
  · have hlen : (0 : Rat) < ((x :: xs).length : Rat) := by
      exact_mod_cast Nat.succ_pos xs.length
    simp [hlen]
    intro h
    have hpos : (0 : Rat) < (xs.length : Rat) + 1 := by positivity
    linarith

/-- C8: in every payload the worker emits, the aggregate confidence is the
arithmetic mean of the per-segment confidences and 0 when there are no
segments; in particular confidences 0.8, 0.6 and 1.0 average to 0.8. -/
theorem confidence_aggregation (result : SpeechRecognitionResult)
    (locale audioPath : String) :
    ((RecognitionPayload.ofResult result locale audioPath).confidence
      = if result.segments = [] then 0
        else (result.segments.map (fun s => s.confidence)).sum
              / (result.segments.length : Rat))
    ∧ floatAverage [8 / 10, 6 / 10, 1] = 8 / 10
    ∧ floatAverage [] = 0 := by
  refine ⟨?_, by
    rw [floatAverage_eq_mean, if_neg (by simp)]
    norm_num [List.sum_cons], by
    rw [floatAverage_eq_mean]
    simp⟩
  unfold RecognitionPayload.ofResult
  dsimp only
  rw [floatAverage_eq_mean]
  rcases hseg : result.segments with _ | ⟨sg, sgs⟩ <;> simp [hseg]

/-! ## Protocol-layer claims -/

/-- The literal worker stdout from the spec's exit-code/stdout matrix
example. -/
def examplePayloadText : String :=
  "\x7b\"locale\":\"ja-JP\",\"text\":\"テスト\",\"confidence\":0.9,\"segments\":[],\"audioPath\":\"<path>\"\x7d"

/-- The JSON value `JSON.parse` yields for `examplePayloadText`. -/
def exampleParsed : Json :=
  .obj [("locale", .str "ja-JP"), ("text", .str "テスト"),
        ("confidence", .num (9 / 10)), ("segments", .arr []),
        ("audioPath", .str "<path>")]

/-- C4: exit-code/stdout matrix of the Protocol layer.  A non-zero exit fails
with the trimmed stderr, or with the generic exited-with-code message when
the trimmed stderr is empty; exit 0 with unparsable stdout fails with a
message carrying the parse error and a 200-character prefix of the output;
exit 0 with parsable stdout succeeds with the parsed value; and the literal
example payload yields a result with text テスト and confidence 0.9. -/
theorem exit_code_stdout_matrix (o : ProcessOutcome) :
    (∀ s, o.exitCode ≠ 0 → jsTrim o.stderr = s → s ≠ "" →
        transcribeAudioFile o = .error s)
    ∧ (o.exitCode ≠ 0 → jsTrim o.stderr = "" →
        transcribeAudioFile o
          = .error ("Speech process exited with code " ++ toString o.exitCode))
    ∧ (∀ out msg, o.exitCode = 0 → jsTrim o.stdout = out → out ≠ "" →
        parseJson out = .error msg →
        transcribeAudioFile o
          = .error ("Failed to parse speech output: " ++ msg ++
              "\nOutput received: " ++ jsTake out 200))
    ∧ (∀ out v, o.exitCode = 0 → jsTrim o.stdout = out → out ≠ "" →
        parseJson out = .ok v → transcribeAudioFile o = .ok v)
    ∧ (transcribeAudioFile
          { stdout := examplePayloadText, stderr := "", exitCode := 0 }
        = .ok exampleParsed
       ∧ exampleParsed.getField "text" = some (.str "テスト")
       ∧ exampleParsed.getField "confidence" = some (.num (9 / 10))) := by
  refine ⟨?_, ?_, ?_, ?_, ?_, ?_, ?_⟩
  · intro s hc hs hne
    unfold transcribeAudioFile
    rw [if_pos hc, hs, if_pos hne]
  · intro hc hs
    unfold transcribeAudioFile
    rw [if_pos hc, hs, if_neg (by simp)]
  · intro out msg hc hout hne hparse
    have hc' : ¬ o.exitCode ≠ 0 := by simp [hc]
    unfold transcribeAudioFile
    rw [if_neg hc']
    dsimp only
    rw [hout, if_neg hne, hparse]
  · intro out v hc hout hne hparse
    have hc' : ¬ o.exitCode ≠ 0 := by simp [hc]
    unfold transcribeAudioFile
    rw [if_neg hc']
    dsimp only
    rw [hout, if_neg hne, hparse]
  · rfl
  · rfl
  · rfl

/-- Witness for `exit_code_stdout_matrix`: concrete outcomes for the
non-zero-exit, empty-stderr, and malformed-stdout branches. -/
theorem exit_code_stdout_matrix_witness :
    (transcribeAudioFile { stdout := "", stderr := " boom \n", exitCode := 2 }
        = .error "boom")
    ∧ (transcribeAudioFile { stdout := "", stderr := "", exitCode := 5 }
        = .error ("Speech process exited with code " ++ toString (5 : Int)))
    ∧ (transcribeAudioFile { stdout := "oops", stderr := "", exitCode := 0 }
        = .error ("Failed to parse speech output: " ++ "Unexpected token in JSON"
            ++ "\nOutput received: " ++ jsTake "oops" 200)) :=
  ⟨(exit_code_stdout_matrix { stdout := "", stderr := " boom \n", exitCode := 2 }).1
      "boom" (by decide) rfl (by decide),
   (exit_code_stdout_matrix { stdout := "", stderr := "", exitCode := 5 }).2.1
      (by decide) rfl,
   (exit_code_stdout_matrix { stdout := "oops", stderr := "", exitCode := 0 }).2.2.1
      "oops" "Unexpected token in JSON" rfl rfl (by decide) rfl⟩

/-- C6 counterexample: with exit 0, empty stdout and non-empty stderr, the
failure message carries only the stderr diagnostics and omits the
format-mismatch hint (which would mention the unsupported audio format). -/
theorem empty_stdout_hint_counterexample :
    transcribeAudioFile { stdout := "", stderr := "boom", exitCode := 0 }
      = .error "Speech binary produced no output.\nBinary error output: boom"
    ∧ containsSubstring
        "Speech binary produced no output.\nBinary error output: boom"
        "unsupported audio format" = false
    ∧ containsSubstring formatMismatchHint "unsupported audio format" = true :=
  ⟨rfl, rfl, rfl⟩

/-- C6 (amended): when the worker exits 0 with stdout empty after trimming,
the call fails; the message carries the format-mismatch hint naming the
unsupported audio containers exactly when the trimmed stderr is empty, and
otherwise instead appends the trimmed stderr for diagnostics, omitting the
hint. -/
theorem empty_stdout_failure_amended (o : ProcessOutcome)
    (hexit : o.exitCode = 0) (hout : jsTrim o.stdout = "") :
    (jsTrim o.stderr = "" →
        transcribeAudioFile o
          = .error ("Speech binary produced no output." ++ formatMismatchHint))
    ∧ (∀ s, jsTrim o.stderr = s → s ≠ "" →
        transcribeAudioFile o
          = .error ("Speech binary produced no output." ++
              ("\nBinary error output: " ++ s))) := by
  have hexit' : ¬ o.exitCode ≠ 0 := by simp [hexit]
  constructor
  · intro hs
    unfold transcribeAudioFile
    rw [if_neg hexit']
    dsimp only
    rw [hout, if_pos rfl, hs, if_neg (by simp)]
  · intro s hs hne
    unfold transcribeAudioFile
    rw [if_neg hexit']
    dsimp only
    rw [hout, if_pos rfl, hs, if_pos hne]

/-- Witness for `empty_stdout_failure_amended` at both stderr cases. -/
theorem empty_stdout_failure_amended_witness :
    (transcribeAudioFile { stdout := " ", stderr := "", exitCode := 0 }
        = .error ("Speech binary produced no output." ++ formatMismatchHint))
    ∧ (transcribeAudioFile { stdout := "", stderr := "boom2", exitCode := 0 }
        = .error ("Speech binary produced no output." ++
            ("\nBinary error output: " ++ "boom2"))) :=
  ⟨(empty_stdout_failure_amended
      { stdout := " ", stderr := "", exitCode := 0 } rfl rfl).1 rfl,
   (empty_stdout_failure_amended
      { stdout := "", stderr := "boom2", exitCode := 0 } rfl rfl).2
      "boom2" rfl (by decide)⟩

/-- C9: the Protocol performs no schema validation — whenever the worker
exits 0 and its trimmed stdout parses as any JSON document, the call succeeds
with that parsed value, fields present or not; in particular `null`, an empty
object and an object with only unrelated keys all succeed. -/
theorem no_schema_validation (o : ProcessOutcome) :
    (∀ out v, o.exitCode = 0 → jsTrim o.stdout = out → out ≠ "" →
        parseJson out = .ok v → transcribeAudioFile o = .ok v)
    ∧ transcribeAudioFile { stdout := "null", stderr := "", exitCode := 0 }
        = .ok .null
    ∧ transcribeAudioFile { stdout := "\x7b\x7d", stderr := "", exitCode := 0 }
        = .ok (.obj [])
    ∧ transcribeAudioFile
        { stdout := "\x7b\"unrelated\":true\x7d", stderr := "", exitCode := 0 }
        = .ok (.obj [("unrelated", .bool true)]) := by
  refine ⟨?_, rfl, rfl, rfl⟩
  intro out v hc hout hne hparse
  have hc' : ¬ o.exitCode ≠ 0 := by simp [hc]
  unfold transcribeAudioFile
  rw [if_neg hc']
  dsimp only
  rw [hout, if_neg hne, hparse]

/-- Witness for `no_schema_validation`: a bare JSON number is accepted. -/
theorem no_schema_validation_witness :
    transcribeAudioFile { stdout := "42", stderr := "", exitCode := 0 }
      = .ok (.num 42) :=
  (no_schema_validation { stdout := "42", stderr := "", exitCode := 0 }).1
    "42" (.num 42) rfl rfl (by decide) (by rfl)

end Seam
